import Mathlib

/-!
Verification of the reloadable logging pipeline
(`config.rs`, `log.rs`, `reload.rs`, `main.rs`).

The Rust sources are shallowly embedded: configuration structures become
Lean structures, the fallible build pipeline returns `Except`, external
effects (file opening, `EnvFilter` parsing, the global dispatcher) are
threaded as explicit oracles, and the observable side effects of the
reload path are recorded as an explicit list of `Action`s in program
order.  The concurrent emit/reload interaction is embedded as a small-step
system over an explicit state.
-/

namespace TracingReload

/-! ## Config model (src/config.rs) -/

def DEFAULT_LOG_LEVEL : String := "info"

def DEFAULT_LOG_FILENAME : String := "app.log"

inductive LogFormat
  | full
  | pretty
  | compact
  | system
  deriving DecidableEq, Repr

inductive ConsoleTarget
  | stdout
  | stderr
  deriving DecidableEq, Repr

structure ConsoleLogConfig where
  color : Bool
  level : Option String
  format : Option LogFormat
  target : ConsoleTarget
  deriving DecidableEq, Repr

/-- `impl Default for ConsoleLogConfig` (config.rs:38-47). -/
def ConsoleLogConfig.default : ConsoleLogConfig :=
  { color := true, level := none, format := none, target := .stdout }

inductive FileWritingMode
  | append
  | overwrite
  deriving DecidableEq, Repr

/-- Model of `std::path::PathBuf`: a flag for absoluteness plus the
component list.  `join` follows the documented `Path::join` semantics:
joining an absolute path replaces the receiver entirely. -/
structure FsPath where
  absolute : Bool
  components : List String
  deriving DecidableEq, Repr

def FsPath.join (base other : FsPath) : FsPath :=
  if other.absolute then other
  else { absolute := base.absolute, components := base.components ++ other.components }

structure FileLogConfig where
  color : Bool
  level : Option String
  format : Option LogFormat
  path : FsPath
  mode : FileWritingMode
  deriving DecidableEq, Repr

/-- `impl Default for FileLogConfig` (config.rs:66-76). -/
def FileLogConfig.default : FileLogConfig :=
  { color := false, level := none, format := none,
    path := { absolute := false, components := [DEFAULT_LOG_FILENAME] },
    mode := .append }

inductive AppenderLogConfig
  | console (c : ConsoleLogConfig)
  | file (f : FileLogConfig)
  deriving DecidableEq, Repr

/-- `LogConfigs` (config.rs:85-89).  The `IndexMap` is embedded as an
ordered association list, preserving insertion order. -/
structure LogConfigs where
  appenders : List (String × AppenderLogConfig)
  deriving DecidableEq, Repr

/-- `FilterId::MAX_ID` from the external `tracing-subscriber` crate: the
fixed ceiling on simultaneously distinguishable per-subscriber filters. -/
def FilterId_MAX_ID : Nat := 62

/-- `deserialize_log_configs` (config.rs:91-112): default an empty mapping
to one stdout console appender, then reject mappings larger than the
filter-id ceiling. -/
def deserialize_log_configs (raw : LogConfigs) : Except String LogConfigs :=
  let lc : LogConfigs :=
    if raw.appenders.isEmpty then
      { appenders := [("stdout", .console ConsoleLogConfig.default)] }
    else raw
  if lc.appenders.length > FilterId_MAX_ID then
    .error ("cannot have more than " ++ toString FilterId_MAX_ID ++ " appenders")
  else
    .ok lc

structure GlobalLogConfig where
  level_from_env : Option String
  level : String
  format : LogFormat
  deriving DecidableEq, Repr

/-- `impl Default for GlobalLogConfig` (config.rs:124-132). -/
def GlobalLogConfig.default : GlobalLogConfig :=
  { level_from_env := none, level := DEFAULT_LOG_LEVEL, format := .full }

structure Log where
  global : GlobalLogConfig
  configs : LogConfigs
  deriving DecidableEq, Repr

/-- Outcome of `env::var("RUST_LOG")`. -/
inductive EnvVarResult
  | notPresent
  | present (value : String)
  | notUnicode
  deriving DecidableEq, Repr

def EnvVarResult.toOption : EnvVarResult → Option String
  | .present v => some v
  | _ => none

/-- The `[log]` section fields other than the skipped `level_from_env`,
as produced by the external TOML deserializer (serde defaults applied). -/
structure RawGlobal where
  level : String
  format : LogFormat
  deriving DecidableEq, Repr

/-- Outcome of the external `toml::from_str` front end: either malformed
text, or a well-formed document carrying the global section and the raw
ordered appender entries (before `deserialize_log_configs` runs). -/
inductive RawToml
  | malformed
  | wellFormed (global : RawGlobal) (appenders : List (String × AppenderLogConfig))
  deriving DecidableEq, Repr

inductive LogError
  | envError
  | configError (msg : String)
  | ioError
  | levelParseError (level : String)
  | dispatchError
  deriving DecidableEq, Repr

def resolveAppenderPath (data_dir : FsPath) : AppenderLogConfig → AppenderLogConfig
  | .console c => .console c
  | .file f => .file { f with path := data_dir.join f.path }

/-- The appender list after the empty-mapping default of
`deserialize_log_configs` has been applied. -/
def normalizedAppenders (apps : List (String × AppenderLogConfig)) :
    List (String × AppenderLogConfig) :=
  if apps.isEmpty then [("stdout", .console ConsoleLogConfig.default)] else apps

/-- `Log::parse` (config.rs:142-167): read `RUST_LOG` (propagating a
non-unicode failure), run the TOML deserializer (which includes
`deserialize_log_configs`), record the environment override, then join
every file appender path onto `data_dir`. -/
def Log.parse (env : EnvVarResult) (toml : RawToml) (data_dir : FsPath) :
    Except LogError Log :=
  match env with
  | .notUnicode => .error .envError
  | _ =>
    match toml with
    | .malformed => .error (.configError "toml parse error")
    | .wellFormed g rawAppenders =>
      match deserialize_log_configs { appenders := rawAppenders } with
      | .error msg => .error (.configError msg)
      | .ok configs =>
        let resolved := configs.appenders.map
          (fun p => (p.1, resolveAppenderPath data_dir p.2))
        .ok { global := { level_from_env := env.toOption,
                          level := g.level, format := g.format },
              configs := { appenders := resolved } }

/-- `LogConfig::color` (config.rs:171-194), dispatched over the variant. -/
def AppenderLogConfig.color : AppenderLogConfig → Bool
  | .console c => c.color
  | .file f => f.color

/-- `LogConfig::level` (config.rs:171-194). -/
def AppenderLogConfig.level : AppenderLogConfig → Option String
  | .console c => c.level
  | .file f => f.level

/-- `LogConfig::format` (config.rs:171-194). -/
def AppenderLogConfig.format : AppenderLogConfig → Option LogFormat
  | .console c => c.format
  | .file f => f.format

/-! ## Appender factory (src/log.rs) -/

inductive Writer
  | stdout
  | stderr
  | file (path : FsPath) (mode : FileWritingMode)
  deriving DecidableEq, Repr

structure WorkerGuard where
  writer : Writer
  deriving DecidableEq, Repr

/-- A file-open attempt (`File::options().open` / `File::create`). -/
structure FileOpen where
  path : FsPath
  mode : FileWritingMode
  deriving DecidableEq, Repr

/-- Oracles for the external effects the factory performs: whether opening
a given file succeeds and whether `EnvFilter::from_str` accepts a level
string. -/
structure IoEnv where
  openFileOk : FsPath → FileWritingMode → Bool
  levelOk : String → Bool

/-- `AppenderConfig::non_blocking` (log.rs:90-114): console writers never
fail and touch no file; file writers attempt to open the configured path
in the configured mode, recording the attempt. -/
def AppenderLogConfig.non_blocking (cfg : AppenderLogConfig) (io : IoEnv) :
    Except LogError (Writer × WorkerGuard) × List FileOpen :=
  match cfg with
  | .console c =>
    match c.target with
    | .stdout => (.ok (.stdout, ⟨.stdout⟩), [])
    | .stderr => (.ok (.stderr, ⟨.stderr⟩), [])
  | .file f =>
    if io.openFileOk f.path f.mode then
      (.ok (.file f.path f.mode, ⟨.file f.path f.mode⟩), [⟨f.path, f.mode⟩])
    else
      (.error .ioError, [⟨f.path, f.mode⟩])

inductive EventFormat
  | full
  | pretty
  | compact
  | system
  deriving DecidableEq, Repr

/-- `impl From<LogFormat> for EventFormat` (log.rs:55-64). -/
def EventFormat.ofLogFormat : LogFormat → EventFormat
  | .full => .full
  | .pretty => .pretty
  | .compact => .compact
  | .system => .system

/-- A compiled `EnvFilter`, carrying its source directive. -/
structure EnvFilter where
  directive : String
  deriving DecidableEq, Repr

structure SubscriberSetup where
  writer : Writer
  color : Bool
  filter : EnvFilter
  format : EventFormat
  deriving DecidableEq, Repr

/-- `SubscriberSetup::from_appender` (log.rs:133-150): resolve level as
environment override, else appender level, else global level; resolve
format as appender format, else global format; open the writer; compile
the filter. -/
def SubscriberSetup.from_appender (io : IoEnv) (config : AppenderLogConfig)
    (global_config : GlobalLogConfig) :
    Except LogError (SubscriberSetup × WorkerGuard) × List FileOpen :=
  let level := ((global_config.level_from_env).or config.level).getD global_config.level
  let color := config.color
  let format := config.format.getD global_config.format
  match config.non_blocking io with
  | (.error e, opens) => (.error e, opens)
  | (.ok (w, guard), opens) =>
    if io.levelOk level then
      (.ok ({ writer := w, color := color, filter := ⟨level⟩,
              format := .ofLogFormat format }, guard), opens)
    else
      (.error (.levelParseError level), opens)

structure FilteredSubscriber where
  ansi : Bool
  writer : Writer
  event_format : EventFormat
  filter : EnvFilter
  deriving DecidableEq, Repr

/-- `SubscriberSetup::into_subscriber` (log.rs:152-162). -/
def SubscriberSetup.into_subscriber (s : SubscriberSetup) : FilteredSubscriber :=
  { ansi := s.color, writer := s.writer, event_format := s.format, filter := s.filter }

structure Subscribers where
  subscribers : List SubscriberSetup
  worker_guards : List WorkerGuard
  deriving DecidableEq, Repr

/-- The loop body of `TryFrom<Log> for Subscribers` (log.rs:207-234):
build each appender in insertion order, pushing one subscriber and one
guard per entry, stopping at the first failure. -/
def buildSubscribersList (io : IoEnv) (global : GlobalLogConfig) :
    List (String × AppenderLogConfig) → Except LogError Subscribers × List FileOpen
  | [] => (.ok ⟨[], []⟩, [])
  | entry :: rest =>
    match SubscriberSetup.from_appender io entry.2 global with
    | (.error e, opens) => (.error e, opens)
    | (.ok (s, g), opens) =>
      match buildSubscribersList io global rest with
      | (.error e, opens2) => (.error e, opens ++ opens2)
      | (.ok subs, opens2) =>
        (.ok ⟨s :: subs.subscribers, g :: subs.worker_guards⟩, opens ++ opens2)

/-- `TryFrom<Log> for Subscribers` (log.rs:207-234). -/
def Subscribers.tryFrom (io : IoEnv) (log : Log) :
    Except LogError Subscribers × List FileOpen :=
  buildSubscribersList io log.global log.configs.appenders

/-- `Subscribers::into_components` (log.rs:179-190). -/
def Subscribers.into_components (s : Subscribers) :
    List WorkerGuard × List FilteredSubscriber :=
  (s.worker_guards, s.subscribers.map SubscriberSetup.into_subscriber)

/-- `build_appenders` (log.rs:236-239): parse, then assemble. -/
def build_appenders (io : IoEnv) (env : EnvVarResult) (toml : RawToml)
    (data_dir : FsPath) : Except LogError Subscribers × List FileOpen :=
  match Log.parse env toml data_dir with
  | .error e => (.error e, [])
  | .ok log => Subscribers.tryFrom io log

/-- The `Log` value that `build_default_appenders` constructs. -/
def defaultLog (level_from_env : Option String) : Log :=
  { global := { GlobalLogConfig.default with level_from_env := level_from_env },
    configs := { appenders := [("stdout", .console ConsoleLogConfig.default)] } }

/-- `build_default_appenders` (log.rs:241-261). -/
def build_default_appenders (io : IoEnv) (env : EnvVarResult) :
    Except LogError Subscribers × List FileOpen :=
  match env with
  | .notUnicode => (.error .envError, [])
  | _ => Subscribers.tryFrom io (defaultLog env.toOption)

/-! ## Reloadable dispatch stage (src/reload.rs) and entry points -/

/-- Observable side effects of the load/reload paths, in program order. -/
inductive Action
  | dropGuard (g : WorkerGuard)
  | openFile (f : FileOpen)
  | onSubscribe
  | store (snapshot : List FilteredSubscriber)
  | rebuildInterestCache
  | rebuildFilterCache
  | setGlobalDispatch
  | warnDefaultConfig
  deriving DecidableEq, Repr

def Action.isDropGuard : Action → Bool
  | .dropGuard _ => true
  | _ => false

def Action.isStore : Action → Bool
  | .store _ => true
  | _ => false

/-- `ReloadableSubscriber::reload` (reload.rs:33-38): attach the new
subscriber set, atomically store it as the published snapshot, then
rebuild the callsite interest cache and the per-span filter cache, in
that order.  Returns the newly published snapshot and the action trace. -/
def ReloadableSubscriber.reload (new_subscriber : List FilteredSubscriber) :
    List FilteredSubscriber × List Action :=
  (new_subscriber,
   [.onSubscribe, .store new_subscriber, .rebuildInterestCache, .rebuildFilterCache])

/-- `LogGuard` (log.rs:41-45): the snapshot currently published through
the subscriber handle, plus the worker guards keeping the writers alive. -/
structure LogGuard where
  published : List FilteredSubscriber
  worker_guards : List WorkerGuard
  deriving DecidableEq, Repr

/-- `Subscribers::build` (log.rs:192-205): split into components, install
the reloadable subscriber (`with_reloadable` runs `on_subscribe`), then
set the global dispatcher, which may fail. -/
def Subscribers.build (dispatchOk : Bool) (s : Subscribers) :
    Except LogError LogGuard × List Action :=
  let comps := s.into_components
  if dispatchOk then
    (.ok { published := comps.2, worker_guards := comps.1 },
     [.onSubscribe, .setGlobalDispatch])
  else
    (.error .dispatchError, [.onSubscribe, .setGlobalDispatch])

/-- `init_log` (log.rs:263-284): build the configured appenders, falling
back to the default console appenders on any build error; install them;
warn about the original error afterwards. -/
def init_log (io : IoEnv) (env : EnvVarResult) (toml : RawToml)
    (data_dir : FsPath) (dispatchOk : Bool) :
    Except LogError LogGuard × List Action :=
  match build_appenders io env toml data_dir with
  | (.ok subs, opens) =>
    match subs.build dispatchOk with
    | (.error e, acts) => (.error e, opens.map .openFile ++ acts)
    | (.ok g, acts) => (.ok g, opens.map .openFile ++ acts)
  | (.error _, opens) =>
    match build_default_appenders io env with
    | (.error e, opens2) => (.error e, (opens ++ opens2).map .openFile)
    | (.ok subs, opens2) =>
      match subs.build dispatchOk with
      | (.error e, acts) => (.error e, (opens ++ opens2).map .openFile ++ acts)
      | (.ok g, acts) =>
        (.ok g, (opens ++ opens2).map .openFile ++ acts ++ [.warnDefaultConfig])

/-- `reload_log` (log.rs:286-313): first flush and clear the current
worker guards, then build the new appenders (falling back to the default
console appenders on any build error), publish them through the
subscriber handle, and warn about the original error afterwards. -/
def reload_log (io : IoEnv) (env : EnvVarResult) (toml : RawToml)
    (data_dir : FsPath) (log_guard : LogGuard) :
    Except LogError LogGuard × List Action :=
  let dropActs := log_guard.worker_guards.map Action.dropGuard
  match build_appenders io env toml data_dir with
  | (.ok subs, opens) =>
    let comps := subs.into_components
    let reloaded := ReloadableSubscriber.reload comps.2
    (.ok { published := reloaded.1, worker_guards := comps.1 },
     dropActs ++ opens.map .openFile ++ reloaded.2)
  | (.error _, opens) =>
    match build_default_appenders io env with
    | (.error e, opens2) => (.error e, dropActs ++ (opens ++ opens2).map .openFile)
    | (.ok subs, opens2) =>
      let comps := subs.into_components
      let reloaded := ReloadableSubscriber.reload comps.2
      (.ok { published := reloaded.1, worker_guards := comps.1 },
       dropActs ++ (opens ++ opens2).map .openFile ++ reloaded.2 ++ [.warnDefaultConfig])

/-! ## Emission semantics under concurrent reloads

`impl_subscribe!` (reload.rs:50-58) makes every `Subscribe` method of
`ReloadableSubscriber` load the published snapshot once
(`self.subscriber.load()`) and run the whole method against that loaded
value.  The small-step system below embeds this: an emit first takes a
local copy of the published snapshot (`emitLoad`), and each per-appender
processing step (`emitProc`) reads only the copy taken at its load, while
`reloadStore` steps may replace the published snapshot at any
interleaving point. -/

inductive Level
  | trace
  | debug
  | info
  | warn
  | error
  deriving DecidableEq, Repr

def Level.toNat : Level → Nat
  | .trace => 0
  | .debug => 1
  | .info => 2
  | .warn => 3
  | .error => 4

/-- Modelled from the spec: the external `EnvFilter` crate compiles a
verbosity directive into a predicate on event levels ("compiled verbosity
predicate"); a plain level directive enables every event at least that
severe, and "off" enables nothing. -/
def parseLevelDirective : String → Option (Option Level)
  | "off" => some none
  | "trace" => some (some .trace)
  | "debug" => some (some .debug)
  | "info" => some (some .info)
  | "warn" => some (some .warn)
  | "error" => some (some .error)
  | _ => none

def EnvFilter.enabled (f : EnvFilter) (eventLevel : Level) : Bool :=
  match parseLevelDirective f.directive with
  | some (some maxVerbosity) => maxVerbosity.toNat ≤ eventLevel.toNat
  | some none => false
  | none => false

structure Event where
  level : Level
  deriving DecidableEq, Repr

/-- The observable outcome of one appender processing one event: the
filter verdict and, when enabled, the formatter and writer it would use. -/
structure Output where
  eid : Nat
  idx : Nat
  enabled : Bool
  format : EventFormat
  writer : Writer
  deriving DecidableEq, Repr

def procOutput (eid : Nat) (e : Event) (k : Nat) (fs : FilteredSubscriber) : Output :=
  { eid := eid, idx := k, enabled := fs.filter.enabled e.level,
    format := fs.event_format, writer := fs.writer }

inductive SysOp
  | emitLoad (eid : Nat) (e : Event)
  | emitProc (eid : Nat) (k : Nat)
  | reloadStore (snapshot : List FilteredSubscriber)
  deriving DecidableEq, Repr

structure SysState where
  published : List FilteredSubscriber
  inflight : List (Nat × Event × List FilteredSubscriber)
  outputs : List Output
  deriving DecidableEq, Repr

def findInflight (eid : Nat) :
    List (Nat × Event × List FilteredSubscriber) →
      Option (Event × List FilteredSubscriber)
  | [] => none
  | p :: rest => if p.1 = eid then some p.2 else findInflight eid rest

/-- The output (if any) produced when emit `eid` processes its `k`-th
appender: the appender is looked up in the snapshot copy loaded by that
emit, never in the currently published snapshot. -/
def lookupOutput (s : SysState) (eid k : Nat) : Option Output :=
  match findInflight eid s.inflight with
  | none => none
  | some (e, snap) =>
    match snap.get? k with
    | none => none
    | some fs => some (procOutput eid e k fs)

def SysState.step (s : SysState) : SysOp → SysState
  | .emitLoad eid e => { s with inflight := (eid, e, s.published) :: s.inflight }
  | .emitProc eid k =>
    match lookupOutput s eid k with
    | none => s
    | some out => { s with outputs := s.outputs ++ [out] }
  | .reloadStore snap => { s with published := snap }

def SysState.run (s : SysState) : List SysOp → SysState
  | [] => s
  | op :: ops => (s.step op).run ops

def initState (published0 : List FilteredSubscriber) : SysState :=
  { published := published0, inflight := [], outputs := [] }

def isLoadOf (eid : Nat) : SysOp → Bool
  | .emitLoad i _ => i = eid
  | _ => false

/-! ## Theorems -/

/-- C5: for every appender specification combined with the global
defaults, the effective verbosity level is the environment override if
present, otherwise the appender's own level if present, otherwise the
global level; and the effective format is the appender's own format if
present, otherwise the global format. -/
theorem from_appender_level_format_resolution (io : IoEnv)
    (config : AppenderLogConfig) (global_config : GlobalLogConfig)
    (setup : SubscriberSetup) (guard : WorkerGuard) (opens : List FileOpen)
    (h : SubscriberSetup.from_appender io config global_config =
      (.ok (setup, guard), opens)) :
    setup.filter.directive =
      (match global_config.level_from_env with
       | some envLevel => envLevel
       | none =>
         match config.level with
         | some ownLevel => ownLevel
         | none => global_config.level) ∧
    setup.format = .ofLogFormat
      (match config.format with
       | some ownFormat => ownFormat
       | none => global_config.format) := by
  unfold SubscriberSetup.from_appender at h
  rcases hnb : config.non_blocking io with ⟨r, o⟩
  rw [hnb] at h
  match r, h with
  | .error e, h => simp at h
  | .ok (w, g), h =>
    dsimp only at h
    split at h
    · simp only [Prod.mk.injEq, Except.ok.injEq] at h
      obtain ⟨⟨hsetup, _⟩, _⟩ := h
      subst hsetup
      constructor
      · cases global_config.level_from_env with
        | some envLevel => rfl
        | none =>
          cases hcl : config.level with
          | some ownLevel => simp [hcl, Option.or, Option.getD]
          | none => simp [hcl, Option.or, Option.getD]
      · cases config.format with
        | some ownFormat => rfl
        | none => rfl
    · simp at h

/-- C5 witness: a concrete instantiation, with an appender-level override
and no environment override resolving to the appender's level. -/
theorem from_appender_level_format_resolution_witness :
    (⟨"debug"⟩ : EnvFilter).directive = "debug" ∧
    (EventFormat.pretty = .ofLogFormat .pretty) := by
  have h := from_appender_level_format_resolution
    ⟨fun _ _ => true, fun _ => true⟩
    (.console { color := true, level := some "debug", format := some .pretty,
                target := .stdout })
    { level_from_env := none, level := "info", format := .full }
    { writer := .stdout, color := true, filter := ⟨"debug"⟩, format := .pretty }
    ⟨.stdout⟩ [] rfl
  exact h

/-- Helper: a successful `deserialize_log_configs` returns exactly the
normalized appender list. -/
theorem deserialize_ok_appenders (apps : List (String × AppenderLogConfig))
    (cfgs : LogConfigs)
    (h : deserialize_log_configs { appenders := apps } = .ok cfgs) :
    cfgs.appenders = normalizedAppenders apps := by
  unfold deserialize_log_configs at h
  dsimp only at h
  by_cases he : apps.isEmpty
  · simp only [he, if_true] at h
    simp only [FilterId_MAX_ID, List.length_cons, List.length_nil,
      Nat.reduceAdd, gt_iff_lt, Nat.reduceLT, if_false] at h
    injection h with h
    subst h
    simp [normalizedAppenders, he]
  · simp only [he, if_false, Bool.false_eq_true] at h
    split at h
    · exact absurd h (by simp)
    · injection h with h
      subst h
      simp [normalizedAppenders, he]

/-- C9: parsing a document with an empty appender mapping normalizes it to
exactly one console appender named "stdout", targeting stdout, with color
enabled and no level or format override; building that appender filters at
the global default level. -/
theorem empty_mapping_normalized (env : EnvVarResult) (g : RawGlobal)
    (data_dir : FsPath) (io : IoEnv)
    (henv : env ≠ .notUnicode)
    (hnoenv : env.toOption = none)
    (hlv : io.levelOk g.level = true) :
    Log.parse env (.wellFormed g []) data_dir =
      .ok { global := { level_from_env := none, level := g.level, format := g.format },
            configs := { appenders :=
              [("stdout", .console { color := true, level := none, format := none,
                                     target := .stdout })] } } ∧
    ConsoleLogConfig.default =
      { color := true, level := none, format := none, target := .stdout } ∧
    SubscriberSetup.from_appender io (.console ConsoleLogConfig.default)
        { level_from_env := none, level := g.level, format := g.format } =
      (.ok ({ writer := .stdout, color := true, filter := ⟨g.level⟩,
              format := .ofLogFormat g.format }, ⟨.stdout⟩), []) := by
  have hfa : SubscriberSetup.from_appender io (.console ConsoleLogConfig.default)
      { level_from_env := none, level := g.level, format := g.format } =
      (.ok ({ writer := .stdout, color := true, filter := ⟨g.level⟩,
              format := .ofLogFormat g.format }, ⟨.stdout⟩), []) := by
    unfold SubscriberSetup.from_appender
    simp [AppenderLogConfig.non_blocking, ConsoleLogConfig.default,
      AppenderLogConfig.color, AppenderLogConfig.level, AppenderLogConfig.format,
      Option.or, Option.getD, hlv]
  rcases env with _ | v | _
  · exact ⟨rfl, rfl, hfa⟩
  · simp [EnvVarResult.toOption] at hnoenv
  · exact absurd rfl henv

/-- C9 witness: the concrete empty-mapping document under default global
settings. -/
theorem empty_mapping_normalized_witness :
    Log.parse .notPresent (.wellFormed ⟨"info", .full⟩ [])
        ⟨false, ["data"]⟩ =
      .ok { global := { level_from_env := none, level := "info", format := .full },
            configs := { appenders :=
              [("stdout", .console { color := true, level := none, format := none,
                                     target := .stdout })] } } ∧
    ConsoleLogConfig.default =
      { color := true, level := none, format := none, target := .stdout } ∧
    SubscriberSetup.from_appender ⟨fun _ _ => true, fun _ => true⟩
        (.console ConsoleLogConfig.default)
        { level_from_env := none, level := "info", format := .full } =
      (.ok ({ writer := .stdout, color := true, filter := ⟨"info"⟩,
              format := .ofLogFormat .full }, ⟨.stdout⟩), []) :=
  empty_mapping_normalized .notPresent ⟨"info", .full⟩ ⟨false, ["data"]⟩
    ⟨fun _ _ => true, fun _ => true⟩ (by decide) rfl rfl

/-- C10: `Log::parse` resolves every file appender path by unconditionally
joining it onto the caller-supplied base directory, and joining an
absolute path discards the base directory, so an absolute configured path
is used as-is. -/
theorem file_paths_joined_onto_base (env : EnvVarResult) (g : RawGlobal)
    (apps : List (String × AppenderLogConfig)) (data_dir : FsPath) (log : Log)
    (h : Log.parse env (.wellFormed g apps) data_dir = .ok log) :
    log.configs.appenders = (normalizedAppenders apps).map
      (fun p => (p.1, resolveAppenderPath data_dir p.2)) ∧
    (∀ f : FileLogConfig, resolveAppenderPath data_dir (.file f) =
      .file { f with path := data_dir.join f.path }) ∧
    (∀ f : FileLogConfig, f.path.absolute = true →
      data_dir.join f.path = f.path) := by
  refine ⟨?_, fun f => rfl, fun f hf => by simp [FsPath.join, hf]⟩
  unfold Log.parse at h
  rcases env with _ | v | _ <;> dsimp only at h
  case notUnicode => exact absurd h (by simp)
  all_goals {
    rcases hd : deserialize_log_configs { appenders := apps } with msg | cfgs <;>
      rw [hd] at h
    · simp at h
    · simp only [Except.ok.injEq] at h
      subst h
      simp [deserialize_ok_appenders apps cfgs hd]
  }

/-- C10 witness: a concrete configuration with one absolute-path file
appender parses; the theorem applies, with the base directory discarded by
the join at the absolute path. -/
theorem file_paths_joined_onto_base_witness :
    ({ global := { level_from_env := none, level := "info", format := .full },
       configs := { appenders :=
         [("log1", .file { color := false, level := none, format := none,
                           path := ⟨true, ["var", "x.log"]⟩,
                           mode := .append })] } } : Log).configs.appenders =
      (normalizedAppenders
        [("log1", .file { color := false, level := none, format := none,
                          path := ⟨true, ["var", "x.log"]⟩, mode := .append })]).map
        (fun p => (p.1, resolveAppenderPath ⟨false, ["data"]⟩ p.2)) ∧
    (∀ f : FileLogConfig, resolveAppenderPath ⟨false, ["data"]⟩ (.file f) =
      .file { f with path := FsPath.join ⟨false, ["data"]⟩ f.path }) ∧
    (∀ f : FileLogConfig, f.path.absolute = true →
      FsPath.join ⟨false, ["data"]⟩ f.path = f.path) :=
  file_paths_joined_onto_base .notPresent ⟨"info", .full⟩
    [("log1", .file { color := false, level := none, format := none,
                      path := ⟨true, ["var", "x.log"]⟩, mode := .append })]
    ⟨false, ["data"]⟩
    { global := { level_from_env := none, level := "info", format := .full },
      configs := { appenders :=
        [("log1", .file { color := false, level := none, format := none,
                          path := ⟨true, ["var", "x.log"]⟩, mode := .append })] } }
    rfl

/-- C8: every configuration whose appender count exceeds the fixed
platform maximum is rejected with a validation error during parsing, and
build_appenders records no file-open attempt for it. -/
theorem overflow_rejected_before_open (io : IoEnv) (env : EnvVarResult)
    (g : RawGlobal) (apps : List (String × AppenderLogConfig)) (data_dir : FsPath)
    (henv : env ≠ .notUnicode)
    (hlen : apps.length > FilterId_MAX_ID) :
    ∃ msg, build_appenders io env (.wellFormed g apps) data_dir =
      (.error (.configError msg), []) := by
  refine ⟨"cannot have more than " ++ toString FilterId_MAX_ID ++ " appenders", ?_⟩
  have hne : apps.isEmpty = false := by
    cases apps
    · simp [FilterId_MAX_ID] at hlen
    · rfl
  have hd : deserialize_log_configs { appenders := apps } =
      .error ("cannot have more than " ++ toString FilterId_MAX_ID ++ " appenders") := by
    unfold deserialize_log_configs
    simp [hne, hlen]
  unfold build_appenders Log.parse
  rcases env with _ | v | _
  · simp [hd]
  · simp [hd]
  · exact absurd rfl henv

/-- C8 witness: a concrete 63-appender configuration is rejected with no
file opened. -/
theorem overflow_rejected_before_open_witness :
    ∃ msg, build_appenders ⟨fun _ _ => true, fun _ => true⟩ .notPresent
      (.wellFormed ⟨"info", .full⟩
        ((List.range 63).map (fun i =>
          ("a" ++ toString i, AppenderLogConfig.console ConsoleLogConfig.default))))
      ⟨false, ["data"]⟩ = (.error (.configError msg), []) :=
  overflow_rejected_before_open ⟨fun _ _ => true, fun _ => true⟩ .notPresent
    ⟨"info", .full⟩
    ((List.range 63).map (fun i =>
      ("a" ++ toString i, AppenderLogConfig.console ConsoleLogConfig.default)))
    ⟨false, ["data"]⟩ (by decide)
    (by simp [List.length_map, List.length_range, FilterId_MAX_ID])

/-- C4: every call to reload publishes the new subscriber set by a single
store of the snapshot reference (the only store in its action trace),
and immediately afterwards rebuilds the callsite interest cache and then
the per-span filter cache, with no cache rebuild before the store; the
published snapshot afterwards is exactly the new subscriber set. -/
theorem reload_store_then_invalidates (new_subscriber : List FilteredSubscriber) :
    (ReloadableSubscriber.reload new_subscriber).1 = new_subscriber ∧
    (∀ j : Nat, (∃ s, ((ReloadableSubscriber.reload new_subscriber).2).get? j =
        some (.store s)) ↔ j = 1) ∧
    ((ReloadableSubscriber.reload new_subscriber).2).get? 1 =
      some (.store new_subscriber) ∧
    ((ReloadableSubscriber.reload new_subscriber).2).get? 2 =
      some .rebuildInterestCache ∧
    ((ReloadableSubscriber.reload new_subscriber).2).get? 3 =
      some .rebuildFilterCache ∧
    (∀ j : Nat, j < 1 →
      ((ReloadableSubscriber.reload new_subscriber).2).get? j ≠
        some .rebuildInterestCache ∧
      ((ReloadableSubscriber.reload new_subscriber).2).get? j ≠
        some .rebuildFilterCache) := by
  refine ⟨rfl, ?_, rfl, rfl, rfl, ?_⟩
  · intro j
    match j with
    | 0 => simp [ReloadableSubscriber.reload]
    | 1 => simp [ReloadableSubscriber.reload]
    | 2 => simp [ReloadableSubscriber.reload]
    | 3 => simp [ReloadableSubscriber.reload]
    | (n + 4) => simp [ReloadableSubscriber.reload, List.get?]
  · intro j hj
    match j, hj with
    | 0, _ => exact ⟨by simp [ReloadableSubscriber.reload], by simp [ReloadableSubscriber.reload]⟩

/-- C6: snapshot assembly is all-or-nothing.  If any appender entry fails
to build, the whole assembly returns a failure (no subscriber list is
produced); if every entry builds, assembly succeeds with exactly one
subscriber and one flush guard per appender, in insertion order, each the
output of the factory on the corresponding entry. -/
theorem assembly_all_or_nothing (io : IoEnv) (global : GlobalLogConfig)
    (apps : List (String × AppenderLogConfig)) :
    ((∃ entry ∈ apps, ∃ e,
        (SubscriberSetup.from_appender io entry.2 global).1 = .error e) →
      ∃ e opens, buildSubscribersList io global apps = (.error e, opens)) ∧
    ((∀ entry ∈ apps, ∃ s g,
        (SubscriberSetup.from_appender io entry.2 global).1 = .ok (s, g)) →
      ∃ subs opens, buildSubscribersList io global apps = (.ok subs, opens) ∧
        subs.subscribers.length = apps.length ∧
        subs.worker_guards.length = apps.length ∧
        ∀ k entry, apps.get? k = some entry →
          ∃ s g,
            (SubscriberSetup.from_appender io entry.2 global).1 = .ok (s, g) ∧
            subs.subscribers.get? k = some s ∧
            subs.worker_guards.get? k = some g) := by
  induction apps with
  | nil =>
    constructor
    · rintro ⟨entry, hmem, _⟩
      exact absurd hmem (List.not_mem_nil entry)
    · intro _
      exact ⟨⟨[], []⟩, [], rfl, rfl, rfl, by intro k entry hk; simp at hk⟩
  | cons hd tl ih =>
    constructor
    · rintro ⟨entry, hmem, e, he⟩
      rcases hfa : SubscriberSetup.from_appender io hd.2 global with ⟨r, o⟩
      cases r with
      | error e2 =>
        exact ⟨e2, o, by simp [buildSubscribersList, hfa]⟩
      | ok sg =>
        have hmem2 : entry ∈ tl := by
          rcases List.mem_cons.mp hmem with heq | h2
          · subst heq
            rw [hfa] at he
            simp at he
          · exact h2
        obtain ⟨e3, opens3, hb⟩ := ih.1 ⟨entry, hmem2, e, he⟩
        obtain ⟨s, g⟩ := sg
        exact ⟨e3, o ++ opens3, by simp [buildSubscribersList, hfa, hb]⟩
    · intro hall
      obtain ⟨s, g, hhd⟩ := hall hd (List.mem_cons_self hd tl)
      rcases hfa : SubscriberSetup.from_appender io hd.2 global with ⟨r, o⟩
      rw [hfa] at hhd
      dsimp only at hhd
      subst hhd
      obtain ⟨subs, opens, hb, hlen1, hlen2, hidx⟩ :=
        ih.2 (fun entry hm => hall entry (List.mem_cons_of_mem hd hm))
      refine ⟨⟨s :: subs.subscribers, g :: subs.worker_guards⟩, o ++ opens,
        by simp [buildSubscribersList, hfa, hb], by simp [hlen1], by simp [hlen2], ?_⟩
      intro k entry hk
      match k, hk with
      | 0, hk =>
        injection hk with hk
        subst hk
        exact ⟨s, g, by rw [hfa], rfl, rfl⟩
      | (k + 1), hk =>
        simp only [List.get?_cons_succ] at hk
        obtain ⟨s2, g2, h1, h2, h3⟩ := hidx k entry hk
        exact ⟨s2, g2, h1, by simpa using h2, by simpa using h3⟩

/-- C6 witness: a two-appender configuration (stdout console and stderr
console) assembles into exactly two subscribers and two guards in order. -/
theorem assembly_all_or_nothing_witness :
    ∃ subs opens, buildSubscribersList ⟨fun _ _ => true, fun _ => true⟩
        GlobalLogConfig.default
        [("stdout", .console ConsoleLogConfig.default),
         ("stderr", .console { color := false, level := some "warn", format := none,
                               target := .stderr })] = (.ok subs, opens) ∧
      subs.subscribers.length =
        [("stdout", AppenderLogConfig.console ConsoleLogConfig.default),
         ("stderr", .console { color := false, level := some "warn", format := none,
                               target := .stderr })].length ∧
      subs.worker_guards.length =
        [("stdout", AppenderLogConfig.console ConsoleLogConfig.default),
         ("stderr", .console { color := false, level := some "warn", format := none,
                               target := .stderr })].length ∧
      ∀ k entry,
        [("stdout", AppenderLogConfig.console ConsoleLogConfig.default),
         ("stderr", .console { color := false, level := some "warn", format := none,
                               target := .stderr })].get? k = some entry →
        ∃ s g,
          (SubscriberSetup.from_appender ⟨fun _ _ => true, fun _ => true⟩ entry.2
            GlobalLogConfig.default).1 = .ok (s, g) ∧
          subs.subscribers.get? k = some s ∧
          subs.worker_guards.get? k = some g :=
  (assembly_all_or_nothing ⟨fun _ _ => true, fun _ => true⟩ GlobalLogConfig.default
    [("stdout", .console ConsoleLogConfig.default),
     ("stderr", .console { color := false, level := some "warn", format := none,
                           target := .stderr })]).2
    (by
      intro entry hm
      simp only [List.mem_cons, List.not_mem_nil, or_false] at hm
      rcases hm with rfl | rfl
      · exact ⟨_, _, rfl⟩
      · exact ⟨_, _, rfl⟩)

/-- Helper: evaluation of the default appender assembly. -/
theorem build_default_tryFrom_eval (io : IoEnv) (lfe : Option String) :
    Subscribers.tryFrom io (defaultLog lfe) =
      (if io.levelOk (lfe.getD DEFAULT_LOG_LEVEL) then
        .ok ⟨[⟨.stdout, true, ⟨lfe.getD DEFAULT_LOG_LEVEL⟩, .full⟩], [⟨.stdout⟩]⟩
      else
        .error (.levelParseError (lfe.getD DEFAULT_LOG_LEVEL)), []) := by
  by_cases hl : io.levelOk (lfe.getD DEFAULT_LOG_LEVEL) <;>
    cases lfe <;>
    simp only [Option.getD_none, Option.getD_some, DEFAULT_LOG_LEVEL] at hl <;>
    simp [Subscribers.tryFrom, defaultLog, buildSubscribersList,
      SubscriberSetup.from_appender, AppenderLogConfig.non_blocking,
      AppenderLogConfig.color, AppenderLogConfig.level, AppenderLogConfig.format,
      ConsoleLogConfig.default, GlobalLogConfig.default, Option.or, Option.getD,
      EventFormat.ofLogFormat, DEFAULT_LOG_LEVEL, hl]

/-- Helper: a successful default build is one console subscriber on
stdout at the environment override level, else at the "info" default. -/
theorem default_build_ok_shape (io : IoEnv) (env : EnvVarResult)
    (dsubs : Subscribers) (dopens : List FileOpen)
    (hdef : build_default_appenders io env = (.ok dsubs, dopens)) :
    dsubs = ⟨[⟨.stdout, true, ⟨(env.toOption).getD DEFAULT_LOG_LEVEL⟩, .full⟩],
             [⟨.stdout⟩]⟩ ∧
    dopens = [] := by
  rcases env with _ | v | _ <;>
    unfold build_default_appenders at hdef <;>
    dsimp only [EnvVarResult.toOption] at hdef ⊢
  · rw [build_default_tryFrom_eval] at hdef
    split at hdef
    · simp only [Prod.mk.injEq, Except.ok.injEq] at hdef
      exact ⟨hdef.1.symm, hdef.2.symm⟩
    · simp at hdef
  · rw [build_default_tryFrom_eval] at hdef
    split at hdef
    · simp only [Prod.mk.injEq, Except.ok.injEq] at hdef
      exact ⟨hdef.1.symm, hdef.2.symm⟩
    · simp at hdef
  · simp at hdef

/-- Helper: on any build failure, `reload_log` publishes the fallback
default subscribers and warns. -/
theorem reload_log_fallback (io : IoEnv) (env : EnvVarResult) (toml : RawToml)
    (data_dir : FsPath) (log_guard : LogGuard) (e : LogError)
    (dsubs : Subscribers) (dopens : List FileOpen)
    (hbuild : (build_appenders io env toml data_dir).1 = .error e)
    (hdef : build_default_appenders io env = (.ok dsubs, dopens)) :
    ∃ acts, reload_log io env toml data_dir log_guard =
      (.ok ⟨dsubs.into_components.2, dsubs.into_components.1⟩, acts) ∧
      Action.warnDefaultConfig ∈ acts ∧
      Action.store dsubs.into_components.2 ∈ acts := by
  unfold reload_log
  rcases hb : build_appenders io env toml data_dir with ⟨r, opens⟩
  rw [hb] at hbuild
  dsimp only at hbuild
  subst hbuild
  rw [hdef]
  dsimp only [ReloadableSubscriber.reload]
  refine ⟨_, rfl, ?_, ?_⟩ <;> simp

/-- Helper: on any build failure, `init_log` installs the fallback
default subscribers and warns. -/
theorem init_log_fallback (io : IoEnv) (env : EnvVarResult) (toml : RawToml)
    (data_dir : FsPath) (e : LogError)
    (dsubs : Subscribers) (dopens : List FileOpen)
    (hbuild : (build_appenders io env toml data_dir).1 = .error e)
    (hdef : build_default_appenders io env = (.ok dsubs, dopens)) :
    ∃ acts, init_log io env toml data_dir true =
      (.ok ⟨dsubs.into_components.2, dsubs.into_components.1⟩, acts) ∧
      Action.warnDefaultConfig ∈ acts := by
  unfold init_log
  rcases hb : build_appenders io env toml data_dir with ⟨r, opens⟩
  rw [hb] at hbuild
  dsimp only at hbuild
  subst hbuild
  rw [hdef]
  dsimp only [Subscribers.build]
  refine ⟨_, rfl, ?_⟩
  simp

/-- C7: when parsing or validating the configuration fails, the
initial-load and reload entry points do not abort: provided the default
build itself succeeds, they substitute a single default console appender
at the global default level (or the environment override), emit the
original error as a diagnostic warning, and return success. -/
theorem config_error_recovered (io : IoEnv) (env : EnvVarResult) (toml : RawToml)
    (data_dir : FsPath) (log_guard : LogGuard) (msg : String)
    (dsubs : Subscribers) (dopens : List FileOpen)
    (hbuild : (build_appenders io env toml data_dir).1 = .error (.configError msg))
    (hdef : build_default_appenders io env = (.ok dsubs, dopens)) :
    (∃ acts, init_log io env toml data_dir true =
      (.ok ⟨[⟨true, .stdout, .full, ⟨(env.toOption).getD DEFAULT_LOG_LEVEL⟩⟩],
            [⟨.stdout⟩]⟩, acts) ∧
      Action.warnDefaultConfig ∈ acts) ∧
    (∃ acts, reload_log io env toml data_dir log_guard =
      (.ok ⟨[⟨true, .stdout, .full, ⟨(env.toOption).getD DEFAULT_LOG_LEVEL⟩⟩],
            [⟨.stdout⟩]⟩, acts) ∧
      Action.warnDefaultConfig ∈ acts) := by
  obtain ⟨hshape, -⟩ := default_build_ok_shape io env dsubs dopens hdef
  subst hshape
  obtain ⟨acts1, h1, hw1⟩ := init_log_fallback io env toml data_dir _ _ _ hbuild hdef
  obtain ⟨acts2, h2, hw2, -⟩ :=
    reload_log_fallback io env toml data_dir log_guard _ _ _ hbuild hdef
  dsimp only [Subscribers.into_components, SubscriberSetup.into_subscriber,
    List.map] at h1 h2
  exact ⟨⟨acts1, h1, hw1⟩, ⟨acts2, h2, hw2⟩⟩

/-- C7 witness: a malformed document is recovered by both entry points. -/
theorem config_error_recovered_witness :
    (∃ acts, init_log ⟨fun _ _ => true, fun _ => true⟩ .notPresent .malformed
      ⟨false, ["data"]⟩ true =
      (.ok ⟨[⟨true, .stdout, .full, ⟨"info"⟩⟩], [⟨.stdout⟩]⟩, acts) ∧
      Action.warnDefaultConfig ∈ acts) ∧
    (∃ acts, reload_log ⟨fun _ _ => true, fun _ => true⟩ .notPresent .malformed
      ⟨false, ["data"]⟩ ⟨[], []⟩ =
      (.ok ⟨[⟨true, .stdout, .full, ⟨"info"⟩⟩], [⟨.stdout⟩]⟩, acts) ∧
      Action.warnDefaultConfig ∈ acts) :=
  config_error_recovered ⟨fun _ _ => true, fun _ => true⟩ .notPresent .malformed
    ⟨false, ["data"]⟩ ⟨[], []⟩ "toml parse error"
    ⟨[⟨.stdout, true, ⟨"info"⟩, .full⟩], [⟨.stdout⟩]⟩ [] rfl rfl

/-- C2 counterexample: a reload whose file appender fails to open does
NOT return the I/O failure to the caller and does NOT leave the previous
configuration in force: `build_appenders` fails with `ioError`, yet
`reload_log` returns success, publishes the default console snapshot
(a `store` action occurs), and the published snapshot differs from the
previously active one. -/
theorem io_error_not_surfaced_cex :
    (build_appenders ⟨fun _ _ => false, fun _ => true⟩ .notPresent
      (.wellFormed ⟨"info", .full⟩
        [("log1", .file ⟨false, none, none, ⟨false, ["log1.log"]⟩, .append⟩)])
      ⟨false, ["data"]⟩).1 = .error .ioError ∧
    (reload_log ⟨fun _ _ => false, fun _ => true⟩ .notPresent
      (.wellFormed ⟨"info", .full⟩
        [("log1", .file ⟨false, none, none, ⟨false, ["log1.log"]⟩, .append⟩)])
      ⟨false, ["data"]⟩
      ⟨[⟨false, .stderr, .compact, ⟨"warn"⟩⟩], [⟨.stderr⟩]⟩).1 =
      .ok ⟨[⟨true, .stdout, .full, ⟨"info"⟩⟩], [⟨.stdout⟩]⟩ ∧
    (∀ e, (reload_log ⟨fun _ _ => false, fun _ => true⟩ .notPresent
      (.wellFormed ⟨"info", .full⟩
        [("log1", .file ⟨false, none, none, ⟨false, ["log1.log"]⟩, .append⟩)])
      ⟨false, ["data"]⟩
      ⟨[⟨false, .stderr, .compact, ⟨"warn"⟩⟩], [⟨.stderr⟩]⟩).1 ≠ .error e) ∧
    Action.store [⟨true, .stdout, .full, ⟨"info"⟩⟩] ∈
      (reload_log ⟨fun _ _ => false, fun _ => true⟩ .notPresent
        (.wellFormed ⟨"info", .full⟩
          [("log1", .file ⟨false, none, none, ⟨false, ["log1.log"]⟩, .append⟩)])
        ⟨false, ["data"]⟩
        ⟨[⟨false, .stderr, .compact, ⟨"warn"⟩⟩], [⟨.stderr⟩]⟩).2 ∧
    ([⟨true, .stdout, .full, ⟨"info"⟩⟩] : List FilteredSubscriber) ≠
      [⟨false, .stderr, .compact, ⟨"warn"⟩⟩] := by
  refine ⟨rfl, rfl, ?_, by decide, by decide⟩
  intro e h
  have hok : (reload_log ⟨fun _ _ => false, fun _ => true⟩ .notPresent
      (.wellFormed ⟨"info", .full⟩
        [("log1", .file ⟨false, none, none, ⟨false, ["log1.log"]⟩, .append⟩)])
      ⟨false, ["data"]⟩
      ⟨[⟨false, .stderr, .compact, ⟨"warn"⟩⟩], [⟨.stderr⟩]⟩).1 =
      .ok ⟨[⟨true, .stdout, .full, ⟨"info"⟩⟩], [⟨.stdout⟩]⟩ := rfl
  rw [hok] at h
  exact Except.noConfusion h

/-- C2 amended: when building the candidate snapshot fails with an I/O
error, the initial-load and reload entry points do not return that
failure: provided the fallback default console build itself succeeds,
they substitute and publish the default console configuration, return
success, and surface the error only as a diagnostic warning; the
previously active configuration is replaced, not retained. -/
theorem io_error_falls_back (io : IoEnv) (env : EnvVarResult) (toml : RawToml)
    (data_dir : FsPath) (log_guard : LogGuard)
    (dsubs : Subscribers) (dopens : List FileOpen)
    (hbuild : (build_appenders io env toml data_dir).1 = .error .ioError)
    (hdef : build_default_appenders io env = (.ok dsubs, dopens)) :
    (∃ acts, init_log io env toml data_dir true =
      (.ok ⟨dsubs.into_components.2, dsubs.into_components.1⟩, acts) ∧
      Action.warnDefaultConfig ∈ acts) ∧
    (∃ acts, reload_log io env toml data_dir log_guard =
      (.ok ⟨dsubs.into_components.2, dsubs.into_components.1⟩, acts) ∧
      Action.warnDefaultConfig ∈ acts ∧
      Action.store dsubs.into_components.2 ∈ acts) :=
  ⟨init_log_fallback io env toml data_dir _ dsubs dopens hbuild hdef,
   reload_log_fallback io env toml data_dir log_guard _ dsubs dopens hbuild hdef⟩

/-- C2 witness: the amended behavior at the concrete failing-file input. -/
theorem io_error_falls_back_witness :
    (∃ acts, init_log ⟨fun _ _ => false, fun _ => true⟩ .notPresent
      (.wellFormed ⟨"info", .full⟩
        [("log1", .file ⟨false, none, none, ⟨false, ["log1.log"]⟩, .append⟩)])
      ⟨false, ["data"]⟩ true =
      (.ok ⟨(⟨[⟨.stdout, true, ⟨"info"⟩, .full⟩], [⟨.stdout⟩]⟩ :
              Subscribers).into_components.2,
            (⟨[⟨.stdout, true, ⟨"info"⟩, .full⟩], [⟨.stdout⟩]⟩ :
              Subscribers).into_components.1⟩, acts) ∧
      Action.warnDefaultConfig ∈ acts) ∧
    (∃ acts, reload_log ⟨fun _ _ => false, fun _ => true⟩ .notPresent
      (.wellFormed ⟨"info", .full⟩
        [("log1", .file ⟨false, none, none, ⟨false, ["log1.log"]⟩, .append⟩)])
      ⟨false, ["data"]⟩
      ⟨[⟨false, .stderr, .compact, ⟨"warn"⟩⟩], [⟨.stderr⟩]⟩ =
      (.ok ⟨(⟨[⟨.stdout, true, ⟨"info"⟩, .full⟩], [⟨.stdout⟩]⟩ :
              Subscribers).into_components.2,
            (⟨[⟨.stdout, true, ⟨"info"⟩, .full⟩], [⟨.stdout⟩]⟩ :
              Subscribers).into_components.1⟩, acts) ∧
      Action.warnDefaultConfig ∈ acts ∧
      Action.store (⟨[⟨.stdout, true, ⟨"info"⟩, .full⟩], [⟨.stdout⟩]⟩ :
        Subscribers).into_components.2 ∈ acts) :=
  io_error_falls_back ⟨fun _ _ => false, fun _ => true⟩ .notPresent
    (.wellFormed ⟨"info", .full⟩
      [("log1", .file ⟨false, none, none, ⟨false, ["log1.log"]⟩, .append⟩)])
    ⟨false, ["data"]⟩
    ⟨[⟨false, .stderr, .compact, ⟨"warn"⟩⟩], [⟨.stderr⟩]⟩
    ⟨[⟨.stdout, true, ⟨"info"⟩, .full⟩], [⟨.stdout⟩]⟩ [] rfl rfl

/-- Helper: actions mapped from file opens are not guard drops. -/
theorem mem_openFile_map_not_drop (opens : List FileOpen) (a : Action)
    (ha : a ∈ opens.map Action.openFile) : a.isDropGuard = false := by
  rcases List.mem_map.mp ha with ⟨f, -, rfl⟩
  rfl

/-- Helper: the `reload_log` action trace always begins with the drops of
every previously held worker guard, and no guard drop occurs later. -/
theorem reload_log_trace_shape (io : IoEnv) (env : EnvVarResult) (toml : RawToml)
    (data_dir : FsPath) (log_guard : LogGuard) :
    ∃ rest, (reload_log io env toml data_dir log_guard).2 =
      log_guard.worker_guards.map Action.dropGuard ++ rest ∧
      ∀ a ∈ rest, a.isDropGuard = false := by
  unfold reload_log
  rcases hb : build_appenders io env toml data_dir with ⟨r, opens⟩
  cases r with
  | ok subs =>
    dsimp only [ReloadableSubscriber.reload]
    refine ⟨List.map Action.openFile opens ++
      [Action.onSubscribe, Action.store subs.into_components.2,
       Action.rebuildInterestCache, Action.rebuildFilterCache],
      by simp [List.append_assoc], ?_⟩
    intro a ha
    rcases List.mem_append.mp ha with h | h
    · exact mem_openFile_map_not_drop opens a h
    · simp only [List.mem_cons, List.not_mem_nil, or_false] at h
      rcases h with rfl | rfl | rfl | rfl <;> rfl
  | error e =>
    rcases hd : build_default_appenders io env with ⟨r2, opens2⟩
    cases r2 with
    | error e2 =>
      refine ⟨_, rfl, ?_⟩
      intro a ha
      exact mem_openFile_map_not_drop _ a ha
    | ok subs =>
      dsimp only [ReloadableSubscriber.reload]
      refine ⟨List.map Action.openFile (opens ++ opens2) ++
        ([Action.onSubscribe, Action.store subs.into_components.2,
          Action.rebuildInterestCache, Action.rebuildFilterCache] ++
         [Action.warnDefaultConfig]),
        by simp [List.append_assoc], ?_⟩
      intro a ha
      rcases List.mem_append.mp ha with h | h
      · exact mem_openFile_map_not_drop _ a h
      · rcases List.mem_append.mp h with h2 | h2
        · simp only [List.mem_cons, List.not_mem_nil, or_false] at h2
          rcases h2 with rfl | rfl | rfl | rfl <;> rfl
        · simp only [List.mem_cons, List.not_mem_nil, or_false] at h2
          subst h2
          rfl

/-- C3 counterexample: in a concrete reload, the superseded snapshot's
flush guard is dropped at trace position 0, strictly before the store
that publishes the new snapshot at position 2 — so the guards are NOT
retained until after the publish. -/
theorem guards_flushed_before_publish_cex :
    (reload_log ⟨fun _ _ => true, fun _ => true⟩ .notPresent
      (.wellFormed ⟨"info", .full⟩ [("stdout", .console ConsoleLogConfig.default)])
      ⟨false, ["data"]⟩
      ⟨[⟨false, .stderr, .compact, ⟨"warn"⟩⟩], [⟨.stderr⟩]⟩).2.get? 0 =
      some (.dropGuard ⟨.stderr⟩) ∧
    (reload_log ⟨fun _ _ => true, fun _ => true⟩ .notPresent
      (.wellFormed ⟨"info", .full⟩ [("stdout", .console ConsoleLogConfig.default)])
      ⟨false, ["data"]⟩
      ⟨[⟨false, .stderr, .compact, ⟨"warn"⟩⟩], [⟨.stderr⟩]⟩).2.get? 2 =
      some (.store [⟨true, .stdout, .full, ⟨"info"⟩⟩]) ∧
    (0 : Nat) < 2 :=
  ⟨rfl, rfl, by decide⟩

/-- C3 amended: `reload_log` flushes and drops the superseded snapshot's
guards at the start of the reload, strictly BEFORE the new snapshot is
built and published — every guard drop in its action trace precedes every
snapshot store. -/
theorem guards_dropped_before_publish (io : IoEnv) (env : EnvVarResult)
    (toml : RawToml) (data_dir : FsPath) (log_guard : LogGuard)
    (i j : Nat) (g : WorkerGuard) (snap : List FilteredSubscriber)
    (hi : (reload_log io env toml data_dir log_guard).2.get? i =
      some (.dropGuard g))
    (hj : (reload_log io env toml data_dir log_guard).2.get? j =
      some (.store snap)) :
    i < j := by
  obtain ⟨rest, htr, hrest⟩ := reload_log_trace_shape io env toml data_dir log_guard
  rw [htr] at hi hj
  by_cases hil : i < (log_guard.worker_guards.map Action.dropGuard).length
  · by_cases hjl : j < (log_guard.worker_guards.map Action.dropGuard).length
    · rw [List.get?_append hjl] at hj
      have hmem := List.get?_mem hj
      rcases List.mem_map.mp hmem with ⟨g2, -, heq⟩
      exact absurd heq (by simp)
    · push_neg at hjl
      omega
  · push_neg at hil
    rw [List.get?_append_right hil] at hi
    have hmem := List.get?_mem hi
    have hfalse := hrest _ hmem
    simp [Action.isDropGuard] at hfalse

/-- C3 witness: the amended ordering at the concrete reload above. -/
theorem guards_dropped_before_publish_witness : (0 : Nat) < 2 :=
  guards_dropped_before_publish ⟨fun _ _ => true, fun _ => true⟩ .notPresent
    (.wellFormed ⟨"info", .full⟩ [("stdout", .console ConsoleLogConfig.default)])
    ⟨false, ["data"]⟩
    ⟨[⟨false, .stderr, .compact, ⟨"warn"⟩⟩], [⟨.stderr⟩]⟩
    0 2 ⟨.stderr⟩ [⟨true, .stdout, .full, ⟨"info"⟩⟩] rfl rfl

/-- Helper: the inflight table is unchanged by a processing step. -/
theorem step_emitProc_inflight (s : SysState) (eid k : Nat) :
    (s.step (.emitProc eid k)).inflight = s.inflight := by
  dsimp only [SysState.step]
  cases lookupOutput s eid k <;> rfl

/-- Helper: a processing step appends exactly the looked-up output. -/
theorem step_emitProc_outputs (s : SysState) (eid k : Nat) :
    (s.step (.emitProc eid k)).outputs =
      s.outputs ++ (lookupOutput s eid k).toList := by
  dsimp only [SysState.step]
  cases lookupOutput s eid k <;> simp

/-- Helper: when the emit has loaded `(e, snap)`, processing appender `k`
produces exactly the verdict of `snap`'s `k`-th appender on `e`. -/
theorem lookupOutput_found (s : SysState) (eid k : Nat) (e : Event)
    (snap : List FilteredSubscriber)
    (hfind : findInflight eid s.inflight = some (e, snap)) :
    lookupOutput s eid k = (snap.get? k).map (procOutput eid e k) := by
  unfold lookupOutput
  rw [hfind]
  show (match snap.get? k with
    | none => none
    | some fs => some (procOutput eid e k fs)) =
    (snap.get? k).map (procOutput eid e k)
  cases snap.get? k <;> rfl

/-- Helper: an emit that has not loaded produces no output. -/
theorem lookupOutput_not_found (s : SysState) (eid k : Nat)
    (hfind : findInflight eid s.inflight = none) :
    lookupOutput s eid k = none := by
  unfold lookupOutput
  rw [hfind]

/-- Helper: membership in the singleton list of a mapped option. -/
theorem mem_map_toList {A B : Type} (f : A → B) (o : Option A) (b : B)
    (h : b ∈ (o.map f).toList) : ∃ a, o = some a ∧ b = f a := by
  cases o with
  | none => simp at h
  | some a =>
    simp at h
    exact ⟨a, rfl, h⟩

/-- Helper: once an emit has loaded its snapshot copy, every output it
produces during any further interleaving without another load for the
same emit is computed from that one loaded copy. -/
theorem run_outputs_tracked (eid : Nat) (e : Event) (snap : List FilteredSubscriber) :
    ∀ (ops : List SysOp) (s : SysState),
      findInflight eid s.inflight = some (e, snap) →
      (∀ op ∈ ops, isLoadOf eid op = false) →
      (∀ out ∈ s.outputs, out.eid = eid →
        ∃ fs, snap.get? out.idx = some fs ∧ out = procOutput eid e out.idx fs) →
      ∀ out ∈ (SysState.run s ops).outputs, out.eid = eid →
        ∃ fs, snap.get? out.idx = some fs ∧ out = procOutput eid e out.idx fs := by
  intro ops
  induction ops with
  | nil =>
    intro s _ _ hout
    exact hout
  | cons op ops ih =>
    intro s hfind hnoload hout
    have hops : ∀ op2 ∈ ops, isLoadOf eid op2 = false :=
      fun op2 hm => hnoload op2 (List.mem_cons_of_mem op hm)
    have hop : isLoadOf eid op = false := hnoload op (List.mem_cons_self op ops)
    show ∀ out ∈ (SysState.run (s.step op) ops).outputs, _
    cases op with
    | emitLoad eid2 e2 =>
      have hne : ¬(eid2 = eid) := by simpa [isLoadOf] using hop
      refine ih _ ?_ hops hout
      simpa [SysState.step, findInflight, hne] using hfind
    | emitProc eid2 k =>
      refine ih _ ?_ hops ?_
      · rw [step_emitProc_inflight]
        exact hfind
      · intro out hm hid
        rw [step_emitProc_outputs] at hm
        rcases List.mem_append.mp hm with h | h
        · exact hout out h hid
        · by_cases heq : eid2 = eid
          · subst heq
            rw [lookupOutput_found s eid2 k e snap hfind] at h
            obtain ⟨fs, hg, rfl⟩ := mem_map_toList _ _ _ h
            exact ⟨fs, hg, rfl⟩
          · cases hf2 : findInflight eid2 s.inflight with
            | none =>
              rw [lookupOutput_not_found s eid2 k hf2] at h
              simp at h
            | some p =>
              obtain ⟨e2, snap2⟩ := p
              rw [lookupOutput_found s eid2 k e2 snap2 hf2] at h
              obtain ⟨fs, hg, rfl⟩ := mem_map_toList _ _ _ h
              simp only [procOutput] at hid
              exact absurd hid heq
    | reloadStore snap2 =>
      exact ih _ hfind hops hout

/-- Helper: main induction for the single-snapshot property, starting
from a state in which the emit has not yet loaded. -/
theorem emit_single_snapshot_aux (eid : Nat) :
    ∀ (ops : List SysOp) (s : SysState),
      findInflight eid s.inflight = none →
      (∀ out ∈ s.outputs, out.eid ≠ eid) →
      List.countP (isLoadOf eid) ops ≤ 1 →
      ∃ (e : Event) (snap : List FilteredSubscriber),
        ∀ out ∈ (SysState.run s ops).outputs, out.eid = eid →
        ∃ fs, snap.get? out.idx = some fs ∧ out = procOutput eid e out.idx fs := by
  intro ops
  induction ops with
  | nil =>
    intro s _ hout _
    exact ⟨⟨.info⟩, [], fun out hm hid => absurd hid (hout out hm)⟩
  | cons op ops ih =>
    intro s hfind hout hcount
    have hcount2 : List.countP (isLoadOf eid) ops ≤ 1 := by
      rw [List.countP_cons] at hcount
      split at hcount <;> omega
    show ∃ (e : Event) (snap : List FilteredSubscriber),
      ∀ out ∈ (SysState.run (s.step op) ops).outputs, _
    cases op with
    | emitLoad eid2 e2 =>
      by_cases heq : eid2 = eid
      · subst heq
        have hcz : List.countP (isLoadOf eid2) ops = 0 := by
          rw [List.countP_cons_of_pos _ _ (by simp [isLoadOf])] at hcount
          omega
        have hnoload : ∀ op2 ∈ ops, isLoadOf eid2 op2 = false := by
          intro op2 hm
          have h2 := List.countP_eq_zero.mp hcz op2 hm
          simpa using h2
        refine ⟨e2, s.published,
          run_outputs_tracked eid2 e2 s.published ops _ ?_ hnoload ?_⟩
        · simp [SysState.step, findInflight]
        · intro out hm hid
          exact absurd hid (hout out hm)
      · refine ih _ ?_ hout hcount2
        simpa [SysState.step, findInflight, heq] using hfind
    | emitProc eid2 k =>
      refine ih _ ?_ ?_ hcount2
      · rw [step_emitProc_inflight]
        exact hfind
      · intro out hm
        rw [step_emitProc_outputs] at hm
        rcases List.mem_append.mp hm with h | h
        · exact hout out h
        · by_cases heq : eid2 = eid
          · subst heq
            rw [lookupOutput_not_found s eid2 k hfind] at h
            simp at h
          · cases hf2 : findInflight eid2 s.inflight with
            | none =>
              rw [lookupOutput_not_found s eid2 k hf2] at h
              simp at h
            | some p =>
              obtain ⟨e2, snap2⟩ := p
              rw [lookupOutput_found s eid2 k e2 snap2 hf2] at h
              obtain ⟨fs, hg, rfl⟩ := mem_map_toList _ _ _ h
              simpa [procOutput] using heq
    | reloadStore snap2 =>
      exact ih _ hfind hout hcount2

/-- C1: in any interleaving of emit steps and reload stores in which each
emit loads the snapshot reference once, every output produced for a given
event is computed from the single snapshot loaded at the start of that
emit — the filter verdict, formatter and writer of each appender all come
from one snapshot, never a mix of two. -/
theorem emit_uses_single_snapshot (published0 : List FilteredSubscriber)
    (ops : List SysOp) (eid : Nat)
    (hwf : List.countP (isLoadOf eid) ops ≤ 1) :
    ∃ (e : Event) (snap : List FilteredSubscriber),
      ∀ out ∈ (SysState.run (initState published0) ops).outputs, out.eid = eid →
        ∃ fs, snap.get? out.idx = some fs ∧ out = procOutput eid e out.idx fs :=
  emit_single_snapshot_aux eid ops (initState published0) rfl
    (by intro out hm; simp [initState] at hm) hwf

/-- C1 witness: a concrete interleaving in which a reload store lands
between the two per-appender processing steps of one emit still yields
outputs drawn from the originally loaded snapshot. -/
theorem emit_uses_single_snapshot_witness :
    ∃ (e : Event) (snap : List FilteredSubscriber),
      ∀ out ∈ (SysState.run
        (initState [⟨true, .stdout, .full, ⟨"info"⟩⟩,
                    ⟨false, .stderr, .compact, ⟨"error"⟩⟩])
        [.emitLoad 0 ⟨.warn⟩, .emitProc 0 0,
         .reloadStore [⟨true, .stdout, .pretty, ⟨"trace"⟩⟩],
         .emitProc 0 1]).outputs, out.eid = 0 →
        ∃ fs, snap.get? out.idx = some fs ∧ out = procOutput 0 e out.idx fs :=
  emit_uses_single_snapshot
    [⟨true, .stdout, .full, ⟨"info"⟩⟩, ⟨false, .stderr, .compact, ⟨"error"⟩⟩]
    [.emitLoad 0 ⟨.warn⟩, .emitProc 0 0,
     .reloadStore [⟨true, .stdout, .pretty, ⟨"trace"⟩⟩],
     .emitProc 0 1] 0 (by decide)

end TracingReload
